import Mathlib

/-!
Verification of the quoteback metadata-fetch pipeline of
`blog/quoteback_utils.py` and the save orchestration of
`QuotebackAdminForm` in `blog/admin.py`.

The HTTP layer (`requests.get`) is modelled as a function parameter
returning either a network error or a status code together with the
(already parsed) response body; exceptions in the Python code are
modelled by the error constructors.  A parsed HTML document
(BeautifulSoup's soup) is modelled as the list of its tags in document
order; attributes are assumed unique per tag.
-/

/-- Python truthiness of a string: non-empty strings are truthy. -/
def truthy (s : String) : Bool := s != ""

/-- Python truthiness of an optional string (absent attribute is falsy). -/
def truthyOpt : Option String → Bool
  | some s => truthy s
  | none => false

/-- Python `str.strip()`: drop leading and trailing whitespace. -/
def pyStrip (s : String) : String :=
  String.mk (((s.data.dropWhile Char.isWhitespace).reverse.dropWhile Char.isWhitespace).reverse)

/-- Python `str.lstrip("@")`: drop every leading `@`. -/
def lstripAt (s : String) : String :=
  String.mk (s.data.dropWhile (fun c => c == '@'))

/-- Python `str.lower()` (ASCII case folding suffices for the rel values used). -/
def pyLower (s : String) : String := String.mk (s.data.map Char.toLower)

/-- Python `str.split()` on a character list: whitespace-separated words, no empties. -/
def wordsAux : List Char → List Char → List (List Char)
  | [], acc => if acc.isEmpty then [] else [acc.reverse]
  | c :: rest, acc =>
    if c.isWhitespace then
      if acc.isEmpty then wordsAux rest [] else acc.reverse :: wordsAux rest []
    else wordsAux rest (c :: acc)

/-- Python `str.split()`: whitespace-separated words of a string. -/
def pyWords (s : String) : List String := (wordsAux s.data []).map String.mk

/-- Substring test on character lists: does `needle` occur inside `hay`? -/
def containsSub (needle : List Char) : List Char → Bool
  | [] => needle.isEmpty
  | c :: rest => List.isPrefixOf needle (c :: rest) || containsSub needle rest

/-- Does `s` start with the string `p`? (character-list prefix test). -/
def strStarts (s p : String) : Bool := List.isPrefixOf p.data s.data

/-- Split a character list at the first occurrence of `c`; the second
component is `none` when `c` does not occur. -/
def splitAtFirst (c : Char) : List Char → List Char × Option (List Char)
  | [] => ([], none)
  | x :: rest =>
    if x == c then ([], some rest)
    else
      let (a, b) := splitAtFirst c rest
      (x :: a, b)

/-- Locate the first `"://"` in a character list, returning the scheme part
before it and the remainder after it. -/
def splitScheme : List Char → Option (List Char × List Char)
  | [] => none
  | c :: rest =>
    if c == ':' then
      match rest with
      | '/' :: '/' :: tail => some ([], tail)
      | _ => none
    else
      match splitScheme rest with
      | some (sch, tail) => some (c :: sch, tail)
      | none => none

/-- Result of `urllib.parse.urlparse`. -/
structure UrlParts where
  scheme : String
  netloc : String
  path : String
  query : String
  fragment : String
deriving DecidableEq

/-- Models `urllib.parse.urlparse` for well-formed absolute `scheme://netloc/path`
URLs and scheme-less relative references (the shapes the pipeline handles). -/
def urlparse (url : String) : UrlParts :=
  let bf := splitAtFirst '#' url.data
  let bq := splitAtFirst '?' bf.1
  let query := String.mk (bq.2.getD [])
  let frag := String.mk (bf.2.getD [])
  match splitScheme bq.1 with
  | some (sch, rest) =>
    { scheme := String.mk sch
      netloc := String.mk (rest.takeWhile (fun c => !(c == '/')))
      path := String.mk (rest.dropWhile (fun c => !(c == '/')))
      query := query
      fragment := frag }
  | none =>
    { scheme := "", netloc := "", path := String.mk bq.1, query := query, fragment := frag }

/-- Models `urllib.parse.urljoin` for an absolute base URL: empty and absolute
references, network-path, absolute-path, query, fragment and plain relative
references (dot-segment normalisation is not needed by the pipeline's inputs). -/
def urljoin (base ref : String) : String :=
  if ref = "" then base
  else if (splitScheme ref.data).isSome then ref
  else
    let b := urlparse base
    if strStarts ref "//" then b.scheme ++ ":" ++ ref
    else
      let netPart := b.scheme ++ "://" ++ b.netloc
      if strStarts ref "/" then netPart ++ ref
      else if strStarts ref "?" then netPart ++ b.path ++ ref
      else if strStarts ref "#" then
        netPart ++ b.path ++ (if b.query = "" then "" else "?" ++ b.query) ++ ref
      else
        let dir := String.mk ((b.path.data.reverse.dropWhile (fun c => !(c == '/'))).reverse)
        let dir := if dir = "" then "/" else dir
        netPart ++ dir ++ ref

/-- One parsed HTML tag: element name, attributes, and the direct string
content (BeautifulSoup's `.string`, `none` when absent). -/
structure HtmlTag where
  name : String
  attrs : List (String × String)
  text : Option String
deriving DecidableEq

/-- A parsed HTML document: its tags in document order. -/
def HtmlDoc := List HtmlTag

/-- `tag.get(key)`: look up an attribute value. -/
def getAttr (t : HtmlTag) (k : String) : Option String :=
  (t.attrs.find? (fun p => p.1 == k)).map (fun p => p.2)

/-- `soup.find("meta", property=v)`: first meta tag whose `property` attribute is `v`. -/
def findMetaByProp (doc : HtmlDoc) (v : String) : Option HtmlTag :=
  List.find? (fun t => t.name == "meta" && getAttr t "property" == some v) doc

/-- `soup.find("meta", attrs={"name": v})`: first meta tag whose `name` attribute is `v`. -/
def findMetaByName (doc : HtmlDoc) (v : String) : Option HtmlTag :=
  List.find? (fun t => t.name == "meta" && getAttr t "name" == some v) doc

/-- The whitespace-separated tokens of a tag's `rel` attribute (BeautifulSoup
stores `rel` as a multi-valued attribute split on whitespace). -/
def relList (t : HtmlTag) : List String :=
  pyWords ((getAttr t "rel").getD "")

/-- `soup.find("link", rel=lambda x: x and "icon" in x.lower())`: first link tag
one of whose rel tokens contains the substring "icon" case-insensitively. -/
def findIconLink (doc : HtmlDoc) : Option HtmlTag :=
  List.find? (fun t => t.name == "link" &&
    (relList t).any (fun v => containsSub "icon".data (pyLower v).data)) doc

/-- `soup.find("link", rel="apple-touch-icon")`: first link tag one of whose rel
tokens equals "apple-touch-icon". -/
def findAppleIconLink (doc : HtmlDoc) : Option HtmlTag :=
  List.find? (fun t => t.name == "link" && (relList t).contains "apple-touch-icon") doc

/-- `soup.find("title")`: first title tag. -/
def findTitleTag (doc : HtmlDoc) : Option HtmlTag :=
  List.find? (fun t => t.name == "title") doc

/-- `_extract_title(soup, url)` from `blog/quoteback_utils.py`: og:title meta
content, then twitter:title meta content, then the stripped title-tag string
(when the raw string is truthy), else the URL. -/
def extractTitle (doc : HtmlDoc) (url : String) : String :=
  if truthyOpt (Option.bind (findMetaByProp doc "og:title") (fun t => getAttr t "content")) then
    (Option.bind (findMetaByProp doc "og:title") (fun t => getAttr t "content")).getD ""
  else if truthyOpt (Option.bind (findMetaByName doc "twitter:title") (fun t => getAttr t "content")) then
    (Option.bind (findMetaByName doc "twitter:title") (fun t => getAttr t "content")).getD ""
  else if truthyOpt (Option.bind (findTitleTag doc) (fun t => t.text)) then
    pyStrip ((Option.bind (findTitleTag doc) (fun t => t.text)).getD "")
  else url

/-- `_extract_author(soup)` from `blog/quoteback_utils.py`: article:author meta
content, then author meta content, then twitter:creator content with leading
`@` stripped, else the empty string. -/
def extractAuthor (doc : HtmlDoc) : String :=
  if truthyOpt (Option.bind (findMetaByProp doc "article:author") (fun t => getAttr t "content")) then
    (Option.bind (findMetaByProp doc "article:author") (fun t => getAttr t "content")).getD ""
  else if truthyOpt (Option.bind (findMetaByName doc "author") (fun t => getAttr t "content")) then
    (Option.bind (findMetaByName doc "author") (fun t => getAttr t "content")).getD ""
  else if truthyOpt (Option.bind (findMetaByName doc "twitter:creator") (fun t => getAttr t "content")) then
    lstripAt ((Option.bind (findMetaByName doc "twitter:creator") (fun t => getAttr t "content")).getD "")
  else ""

/-- `_extract_favicon_url(soup, base_url)` from `blog/quoteback_utils.py`: the
first rel-contains-"icon" link's href resolved against the base URL, then the
first rel="apple-touch-icon" link's href resolved the same way, else the
default `scheme://netloc/favicon.ico`. -/
def extractFaviconUrl (doc : HtmlDoc) (base_url : String) : String :=
  if truthyOpt (Option.bind (findIconLink doc) (fun t => getAttr t "href")) then
    urljoin base_url ((Option.bind (findIconLink doc) (fun t => getAttr t "href")).getD "")
  else if truthyOpt (Option.bind (findAppleIconLink doc) (fun t => getAttr t "href")) then
    urljoin base_url ((Option.bind (findAppleIconLink doc) (fun t => getAttr t "href")).getD "")
  else
    (urlparse base_url).scheme ++ "://" ++ (urlparse base_url).netloc ++ "/favicon.ico"

/-- The transient metadata result of `fetch_page_metadata`: three string
fields, always present, defaulting to empty. -/
structure Metadata where
  title : String
  author : String
  favicon_url : String
deriving DecidableEq

/-- The extraction stage applied to an already fetched and parsed page. -/
def extract_metadata (doc : HtmlDoc) (url : String) : Metadata :=
  { title := extractTitle doc url
    author := extractAuthor doc
    favicon_url := extractFaviconUrl doc url }

/-- Outcome of the HTTP GET for the page: a network-level failure (any
exception raised by `requests.get`), or a status code with the parsed body. -/
inductive PageResp where
  | ok (status : Nat) (doc : HtmlDoc)
  | netErr

/-- Outcome of the HTTP GET for the favicon: a network-level failure, or a
status code with the response bytes. -/
inductive FavResp where
  | ok (status : Nat) (body : List Nat)
  | netErr

/-- `fetch_page_metadata(url, timeout)` from `blog/quoteback_utils.py`, with
the network modelled by `net`.  `requests.raise_for_status` raises exactly
when the status is 400 or above; every exception is caught and leaves the
metadata dictionary at its initial all-empty value. -/
def fetch_page_metadata (net : String → Nat → PageResp) (url : String) (timeout : Nat) : Metadata :=
  match net url timeout with
  | PageResp.ok status doc =>
    if 400 ≤ status then { title := "", author := "", favicon_url := "" }
    else extract_metadata doc url
  | PageResp.netErr => { title := "", author := "", favicon_url := "" }

/-- A Django `ContentFile` with a name: the downloaded bytes and the filename. -/
structure ContentFile where
  content : List Nat
  name : String
deriving DecidableEq

/-- `parsed.path.split("/")[-1]`: the final segment of a path (everything
after the last slash, the whole path when it has no slash). -/
def lastPathSegment (path : String) : String :=
  String.mk ((path.data.reverse.takeWhile (fun c => !(c == '/'))).reverse)

/-- `download_favicon(favicon_url, timeout)` from `blog/quoteback_utils.py`,
with the network modelled by `net`.  On any exception (network error or a
status of 400 or above) it returns `none`; on success the filename is the
final segment of the URL's path, replaced by "favicon.ico" when that segment
contains no dot. -/
def download_favicon (net : String → Nat → FavResp) (favicon_url : String) (timeout : Nat) :
    Option ContentFile :=
  match net favicon_url timeout with
  | FavResp.ok status body =>
    if 400 ≤ status then none
    else
      let filename := lastPathSegment (urlparse favicon_url).path
      let filename := if !(filename.data.contains '.') then "favicon.ico" else filename
      some { content := body, name := filename }
  | FavResp.netErr => none

/-- The quoteback record: the fields of the `Quoteback` model touched or
framed by `QuotebackAdminForm.save` (the favicon is `none` while no asset is
attached; `pk` is `none` for a newly created record). -/
structure Quoteback where
  pk : Option Nat
  quote_text : String
  commentary : String
  title : String
  slug : String
  source_url : String
  page_title : String
  author : String
  favicon : Option ContentFile
  tags : List String
  created : Nat
  is_draft : Bool
  series : Option String
  card_image : String
  metadata : String
  import_ref : Option String
deriving DecidableEq

/-- The state of `QuotebackAdminForm` that `save` consults: the cleaned
`fetch_metadata` flag, `has_changed()`, and `changed_data`. -/
structure QuotebackForm where
  fetch_metadata : Bool
  has_changed : Bool
  changed_data : List String
deriving DecidableEq

/-- The merge block of `QuotebackAdminForm.save`: update `page_title` when
blank, update `author` when blank and the fetched author is truthy, then
download and attach the favicon when a favicon URL was fetched and no favicon
is attached yet. -/
def mergeMetadata (inst : Quoteback) (md : Metadata)
    (favNet : String → Nat → FavResp) : Quoteback :=
  let inst1 := if !(truthy inst.page_title) then { inst with page_title := md.title } else inst
  let inst2 := if !(truthy inst1.author) && truthy md.author then
    { inst1 with author := md.author } else inst1
  if truthy md.favicon_url && inst2.favicon.isNone then
    let favicon_file := download_favicon favNet md.favicon_url 10
    if favicon_file.isSome then { inst2 with favicon := favicon_file } else inst2
  else inst2

/-- `QuotebackAdminForm.save` from `blog/admin.py`, with both network calls
modelled by `pageNet` and `favNet`; the record built by `super().save(commit=False)`
is the input `inst`, persistence itself is outside the model.  The second
component records whether the metadata fetch was attempted (the `should_fetch`
branch was entered). -/
def formSave (form : QuotebackForm) (inst : Quoteback)
    (pageNet : String → Nat → PageResp) (favNet : String → Nat → FavResp) :
    Quoteback × Bool :=
  if form.fetch_metadata && truthy inst.source_url then
    if inst.pk.isNone || !(truthy inst.page_title) ||
        (form.has_changed && form.changed_data.contains "source_url") then
      (mergeMetadata inst (fetch_page_metadata pageNet inst.source_url 10) favNet, true)
    else (inst, false)
  else (inst, false)

/-- First non-empty string in a list, with a default. -/
def firstNonEmpty : List String → String → String
  | [], d => d
  | s :: rest, d => if s = "" then firstNonEmpty rest d else s

/-- The title chain exactly as the spec words it: the first non-empty value
among the og:title content, the twitter:title content and the trimmed
title-element text, falling back to the input URL. -/
def specTitleChain (doc : HtmlDoc) (url : String) : String :=
  firstNonEmpty [
    (Option.bind (findMetaByProp doc "og:title") (fun t => getAttr t "content")).getD "",
    (Option.bind (findMetaByName doc "twitter:title") (fun t => getAttr t "content")).getD "",
    pyStrip ((Option.bind (findTitleTag doc) (fun t => t.text)).getD "")
  ] url

/-- The title chain as the code actually computes it: og:title content, then
twitter:title content, then — when the raw (untrimmed) title-element text is
non-empty — that text trimmed, else the URL. -/
def specTitleChainAmended (doc : HtmlDoc) (url : String) : String :=
  firstNonEmpty [
    (Option.bind (findMetaByProp doc "og:title") (fun t => getAttr t "content")).getD "",
    (Option.bind (findMetaByName doc "twitter:title") (fun t => getAttr t "content")).getD ""
  ] (if (Option.bind (findTitleTag doc) (fun t => t.text)).getD "" = "" then url
     else pyStrip ((Option.bind (findTitleTag doc) (fun t => t.text)).getD ""))

/-- The author chain as the spec words it: the first non-empty value among the
article:author content, the author meta content and the twitter:creator
content with leading `@` stripped, else the empty string. -/
def specAuthorChain (doc : HtmlDoc) : String :=
  firstNonEmpty [
    (Option.bind (findMetaByProp doc "article:author") (fun t => getAttr t "content")).getD "",
    (Option.bind (findMetaByName doc "author") (fun t => getAttr t "content")).getD "",
    lstripAt ((Option.bind (findMetaByName doc "twitter:creator") (fun t => getAttr t "content")).getD "")
  ] ""

/-- The favicon chain as the spec words it: the rel-contains-"icon" link when
it carries a non-empty href, else the rel="apple-touch-icon" link when it
carries a non-empty href (each resolved against the base URL), else the
default `scheme://netloc/favicon.ico`. -/
def specFaviconChain (doc : HtmlDoc) (base_url : String) : String :=
  if (Option.bind (findIconLink doc) (fun t => getAttr t "href")).getD "" = "" then
    if (Option.bind (findAppleIconLink doc) (fun t => getAttr t "href")).getD "" = "" then
      (urlparse base_url).scheme ++ "://" ++ (urlparse base_url).netloc ++ "/favicon.ico"
    else urljoin base_url ((Option.bind (findAppleIconLink doc) (fun t => getAttr t "href")).getD "")
  else urljoin base_url ((Option.bind (findIconLink doc) (fun t => getAttr t "href")).getD "")

/-- A whitespace-only title element: the concrete input separating the code's
title chain from the spec's wording. -/
def wsTitleDoc : HtmlDoc := [{ name := "title", attrs := [], text := some "   " }]

/-- A concrete record with page title "Existing", no author, no favicon, and a
source URL, as in the spec's overwrite test. -/
def wInst : Quoteback :=
  { pk := none, quote_text := "q", commentary := "c", title := "t", slug := "s",
    source_url := "https://x.com/a", page_title := "Existing", author := "",
    favicon := none, tags := ["tag1"], created := 5, is_draft := false, series := none,
    card_image := "", metadata := "m", import_ref := none }

/-- A concrete form state with the fetch flag enabled and nothing changed. -/
def wForm : QuotebackForm :=
  { fetch_metadata := true, has_changed := false, changed_data := [] }

/-- A concrete page network whose response would produce the title "Fetched". -/
def wPageNet : String → Nat → PageResp := fun _ _ =>
  PageResp.ok 200 [⟨"meta", [("property", "og:title"), ("content", "Fetched")], none⟩]

/-- A concrete favicon network that always succeeds. -/
def wFavNet : String → Nat → FavResp := fun _ _ => FavResp.ok 200 [9]

/-- A concrete favicon network that always answers HTTP 404. -/
def wFavNet404 : String → Nat → FavResp := fun _ _ => FavResp.ok 404 []

theorem lstripAt_empty : lstripAt "" = "" := rfl

theorem truthyOpt_eq_getD (o : Option String) : truthyOpt o = (o.getD "" != "") := by
  cases o <;> simp [truthyOpt, truthy]

theorem ite_bne_eq {α : Type} (a : String) (x y : α) :
    (if (a != "") = true then x else y) = if a = "" then y else x := by
  by_cases h : a = "" <;> simp [h]

theorem formSave_fst (form : QuotebackForm) (inst : Quoteback)
    (pageNet : String → Nat → PageResp) (favNet : String → Nat → FavResp) :
    (formSave form inst pageNet favNet).1 = inst ∨
    (formSave form inst pageNet favNet).1 =
      mergeMetadata inst (fetch_page_metadata pageNet inst.source_url 10) favNet := by
  unfold formSave
  split
  · split
    · exact Or.inr rfl
    · exact Or.inl rfl
  · exact Or.inl rfl

theorem mergeMetadata_frame (inst : Quoteback) (md : Metadata)
    (favNet : String → Nat → FavResp) :
    (mergeMetadata inst md favNet).pk = inst.pk ∧
    (mergeMetadata inst md favNet).quote_text = inst.quote_text ∧
    (mergeMetadata inst md favNet).commentary = inst.commentary ∧
    (mergeMetadata inst md favNet).title = inst.title ∧
    (mergeMetadata inst md favNet).slug = inst.slug ∧
    (mergeMetadata inst md favNet).source_url = inst.source_url ∧
    (mergeMetadata inst md favNet).tags = inst.tags ∧
    (mergeMetadata inst md favNet).created = inst.created ∧
    (mergeMetadata inst md favNet).is_draft = inst.is_draft ∧
    (mergeMetadata inst md favNet).series = inst.series ∧
    (mergeMetadata inst md favNet).card_image = inst.card_image ∧
    (mergeMetadata inst md favNet).metadata = inst.metadata ∧
    (mergeMetadata inst md favNet).import_ref = inst.import_ref := by
  simp only [mergeMetadata]
  split_ifs <;> simp

theorem mergeMetadata_keeps_page_title (inst : Quoteback) (md : Metadata)
    (favNet : String → Nat → FavResp) (h : inst.page_title ≠ "") :
    (mergeMetadata inst md favNet).page_title = inst.page_title := by
  simp only [mergeMetadata]
  split_ifs <;> simp_all [truthy]

theorem mergeMetadata_keeps_author_of_present (inst : Quoteback) (md : Metadata)
    (favNet : String → Nat → FavResp) (h : inst.author ≠ "") :
    (mergeMetadata inst md favNet).author = inst.author := by
  simp only [mergeMetadata]
  split_ifs <;> simp_all [truthy]

theorem mergeMetadata_keeps_author_of_fetched_empty (inst : Quoteback) (md : Metadata)
    (favNet : String → Nat → FavResp) (h : md.author = "") :
    (mergeMetadata inst md favNet).author = inst.author := by
  simp only [mergeMetadata]
  split_ifs <;> simp_all [truthy]

theorem mergeMetadata_keeps_favicon_of_present (inst : Quoteback) (md : Metadata)
    (favNet : String → Nat → FavResp) (h : inst.favicon ≠ none) :
    (mergeMetadata inst md favNet).favicon = inst.favicon := by
  simp only [mergeMetadata]
  split_ifs <;> simp_all [truthy]

theorem mergeMetadata_keeps_favicon_of_no_url (inst : Quoteback) (md : Metadata)
    (favNet : String → Nat → FavResp) (h : md.favicon_url = "") :
    (mergeMetadata inst md favNet).favicon = inst.favicon := by
  simp only [mergeMetadata]
  split_ifs <;> simp_all [truthy]

theorem mergeMetadata_favicon_of_download_none (inst : Quoteback) (md : Metadata)
    (favNet : String → Nat → FavResp)
    (h : download_favicon favNet md.favicon_url 10 = none) :
    (mergeMetadata inst md favNet).favicon = inst.favicon := by
  simp only [mergeMetadata]
  split_ifs <;> simp_all

theorem formSave_attempt_flag (form : QuotebackForm) (inst : Quoteback)
    (pageNet : String → Nat → PageResp) (favNet : String → Nat → FavResp) :
    (formSave form inst pageNet favNet).2 =
      (form.fetch_metadata && truthy inst.source_url &&
        (inst.pk.isNone || !(truthy inst.page_title) ||
          (form.has_changed && form.changed_data.contains "source_url"))) := by
  unfold formSave
  split <;> rename_i h1
  · split <;> rename_i h2 <;> simp_all [Option.isSome_iff_ne_none]
  · simp [h1]

/-- C1: for every URL and timeout, `fetch_page_metadata` returns a result with
all three fields present (it is total, so it never raises), and whenever the
HTTP GET fails with a network error or a non-success status, all three fields
are the empty string. -/
theorem fetch_page_metadata_fails_soft (net : String → Nat → PageResp) (url : String)
    (timeout : Nat)
    (h : net url timeout = PageResp.netErr ∨
      ∃ s doc, net url timeout = PageResp.ok s doc ∧ 400 ≤ s) :
    fetch_page_metadata net url timeout = { title := "", author := "", favicon_url := "" } := by
  unfold fetch_page_metadata
  rcases h with h | ⟨s, doc, h, hs⟩
  · rw [h]
  · rw [h]
    simp [hs]

/-- C1 witness: a network error on a concrete URL yields the all-empty result. -/
theorem fetch_page_metadata_fails_soft_witness :
    fetch_page_metadata (fun _ _ => PageResp.netErr) "https://x.com/a" 10 =
      { title := "", author := "", favicon_url := "" } :=
  fetch_page_metadata_fails_soft (fun _ _ => PageResp.netErr) "https://x.com/a" 10 (Or.inl rfl)

/-- C2: during `QuotebackAdminForm.save` the metadata fetch is attempted if and
only if the fetch flag is set AND the source URL is non-empty AND (the record
has no primary key OR its page title is blank OR (the form changed AND
"source_url" is among the changed fields)). -/
theorem formSave_fetches_iff (form : QuotebackForm) (inst : Quoteback)
    (pageNet : String → Nat → PageResp) (favNet : String → Nat → FavResp) :
    (formSave form inst pageNet favNet).2 = true ↔
      (form.fetch_metadata = true ∧ inst.source_url ≠ "" ∧
        (inst.pk = none ∨ inst.page_title = "" ∨
          (form.has_changed = true ∧ "source_url" ∈ form.changed_data))) := by
  rw [formSave_attempt_flag]
  simp [truthy, Option.isNone_iff_eq_none, and_assoc, or_assoc]

/-- C9: the extraction stage is deterministic — equal parsed documents and
equal URLs yield identical title, author and favicon results. -/
theorem extract_metadata_deterministic (d1 d2 : HtmlDoc) (u1 u2 : String)
    (h1 : d1 = d2) (h2 : u1 = u2) :
    extract_metadata d1 u1 = extract_metadata d2 u2 := by
  rw [h1, h2]

/-- C9 witness: the theorem applied at a concrete document and URL. -/
theorem extract_metadata_deterministic_witness :
    extract_metadata [{ name := "title", attrs := [], text := some "T" }] "https://x.com/p" =
      extract_metadata [{ name := "title", attrs := [], text := some "T" }] "https://x.com/p" :=
  extract_metadata_deterministic _ _ _ _ rfl rfl

/-- C4 counterexample: on a page whose only title element holds whitespace,
the code returns the empty string (non-emptiness is checked before trimming)
while the spec's chain — first non-empty among og:title, twitter:title, the
trimmed title text, then the URL — returns the URL. -/
theorem extract_title_spec_counterexample :
    extractTitle wsTitleDoc "https://example.com/post" = "" ∧
    specTitleChain wsTitleDoc "https://example.com/post" = "https://example.com/post" ∧
    ("" : String) ≠ "https://example.com/post" := by
  refine ⟨by decide, by decide, by decide⟩

/-- C4 (amended): the extracted title is the first non-empty value of the
og:title content and the twitter:title content; failing those, the title
element's raw text is tested for non-emptiness before trimming — when
non-empty it is returned trimmed (possibly empty for whitespace-only text),
otherwise the original URL is returned.  In particular Open-Graph "A" beats
plain title "B", and a page with none of the three yields the URL. -/
theorem extract_title_amended_chain :
    (∀ (doc : HtmlDoc) (url : String), extractTitle doc url = specTitleChainAmended doc url) ∧
    extractTitle [⟨"meta", [("property", "og:title"), ("content", "A")], none⟩,
      ⟨"title", [], some "B"⟩] "u" = "A" ∧
    extractTitle [] "u" = "u" := by
  refine ⟨?_, by decide, by decide⟩
  intro doc url
  unfold extractTitle specTitleChainAmended
  simp only [truthyOpt_eq_getD, ite_bne_eq, firstNonEmpty]

/-- C6: the extracted author is the first non-empty value of the
article:author meta content, the author meta content, and the twitter:creator
meta content with leading `@` stripped, the empty string when none is found;
in particular "@alice" yields "alice". -/
theorem extract_author_chain :
    (∀ doc : HtmlDoc, extractAuthor doc = specAuthorChain doc) ∧
    extractAuthor [⟨"meta", [("name", "twitter:creator"), ("content", "@alice")], none⟩]
      = "alice" := by
  refine ⟨?_, by decide⟩
  intro doc
  unfold extractAuthor specAuthorChain
  simp only [truthyOpt_eq_getD, ite_bne_eq, firstNonEmpty]
  by_cases h3 : (Option.bind (findMetaByName doc "twitter:creator")
      (fun t => getAttr t "content")).getD "" = ""
  · simp [h3, lstripAt_empty]
  · by_cases h4 : lstripAt ((Option.bind (findMetaByName doc "twitter:creator")
        (fun t => getAttr t "content")).getD "") = "" <;> simp [h3, h4]

/-- C5: the extracted favicon source URL follows the chain: the first link
whose rel contains "icon" case-insensitively (href resolved against the base
URL) when its href is non-empty, else the rel="apple-touch-icon" link the same
way, else the fallback `scheme://host/favicon.ico`; the concrete examples of
the spec hold, and the fallback always produces a value on a page without
icon links. -/
theorem extract_favicon_url_chain :
    (∀ (doc : HtmlDoc) (base_url : String),
      extractFaviconUrl doc base_url = specFaviconChain doc base_url) ∧
    extractFaviconUrl [⟨"link", [("rel", "shortcut icon"), ("href", "/f.png")], none⟩]
      "https://x.com/a" = "https://x.com/f.png" ∧
    (∀ base_url : String, extractFaviconUrl [] base_url =
      (urlparse base_url).scheme ++ "://" ++ (urlparse base_url).netloc ++ "/favicon.ico") := by
  refine ⟨?_, by decide, ?_⟩
  · intro doc base_url
    unfold extractFaviconUrl specFaviconChain
    simp only [truthyOpt_eq_getD, ite_bne_eq]
  · intro base_url
    unfold extractFaviconUrl
    simp [findIconLink, findAppleIconLink, truthyOpt]

/-- C3: the merge step is fill-if-blank — a non-blank page title is kept, a
non-blank author is kept, a blank fetched author assigns nothing, and an
already attached favicon (or an empty fetched favicon URL) leaves the favicon
untouched. -/
theorem formSave_fill_if_blank (form : QuotebackForm) (inst : Quoteback)
    (pageNet : String → Nat → PageResp) (favNet : String → Nat → FavResp) :
    (inst.page_title ≠ "" → (formSave form inst pageNet favNet).1.page_title = inst.page_title) ∧
    (inst.author ≠ "" → (formSave form inst pageNet favNet).1.author = inst.author) ∧
    ((fetch_page_metadata pageNet inst.source_url 10).author = "" →
      (formSave form inst pageNet favNet).1.author = inst.author) ∧
    (inst.favicon ≠ none → (formSave form inst pageNet favNet).1.favicon = inst.favicon) ∧
    ((fetch_page_metadata pageNet inst.source_url 10).favicon_url = "" →
      (formSave form inst pageNet favNet).1.favicon = inst.favicon) := by
  rcases formSave_fst form inst pageNet favNet with h | h <;> rw [h]
  · exact ⟨fun _ => rfl, fun _ => rfl, fun _ => rfl, fun _ => rfl, fun _ => rfl⟩
  · exact ⟨mergeMetadata_keeps_page_title inst _ favNet,
      mergeMetadata_keeps_author_of_present inst _ favNet,
      mergeMetadata_keeps_author_of_fetched_empty inst _ favNet,
      mergeMetadata_keeps_favicon_of_present inst _ favNet,
      mergeMetadata_keeps_favicon_of_no_url inst _ favNet⟩

/-- C3 witness: a record titled "Existing" keeps that title across a save in
which the fetch would have produced the different title "Fetched". -/
theorem formSave_fill_if_blank_witness :
    wInst.page_title = "Existing" ∧
    (formSave wForm wInst wPageNet wFavNet).1.page_title = "Existing" :=
  ⟨rfl, (formSave_fill_if_blank wForm wInst wPageNet wFavNet).1 (by decide)⟩

/-- C7: on a successful download, `download_favicon` returns the body bytes
paired with the final segment of the favicon URL's path, except that a
segment without a dot is replaced by the literal "favicon.ico". -/
theorem download_favicon_success_filename (net : String → Nat → FavResp)
    (url : String) (timeout s : Nat) (body : List Nat)
    (hok : net url timeout = FavResp.ok s body) (hs : s < 400) :
    download_favicon net url timeout =
      some { content := body,
             name := if (lastPathSegment (urlparse url).path).data.contains '.'
               then lastPathSegment (urlparse url).path else "favicon.ico" } := by
  simp only [download_favicon, hok]
  rw [if_neg (Nat.not_le.mpr hs)]
  by_cases hc : (lastPathSegment (urlparse url).path).data.contains '.' <;> simp [hc]

/-- C7 witness: a concrete download whose path's final segment carries an
extension keeps that segment as the filename. -/
theorem download_favicon_success_filename_witness :
    download_favicon (fun _ _ => FavResp.ok 200 [7]) "https://x.com/i/b.png" 10 =
      some { content := [7], name := "b.png" } := by
  rw [download_favicon_success_filename (fun _ _ => FavResp.ok 200 [7])
    "https://x.com/i/b.png" 10 200 [7] rfl (by decide)]
  decide

/-- C8: when every favicon request fails (network error or non-success status
such as 404), `download_favicon` returns no asset, and the save still
completes with the favicon unchanged and the other fields persisted. -/
theorem download_favicon_fails_soft_save_completes (favNet : String → Nat → FavResp)
    (form : QuotebackForm) (inst : Quoteback) (pageNet : String → Nat → PageResp)
    (hall : ∀ u t, favNet u t = FavResp.netErr ∨
      ∃ s b, favNet u t = FavResp.ok s b ∧ 400 ≤ s) :
    (∀ u t, download_favicon favNet u t = none) ∧
    (formSave form inst pageNet favNet).1.favicon = inst.favicon ∧
    (formSave form inst pageNet favNet).1.quote_text = inst.quote_text ∧
    (formSave form inst pageNet favNet).1.commentary = inst.commentary ∧
    (formSave form inst pageNet favNet).1.slug = inst.slug ∧
    (formSave form inst pageNet favNet).1.source_url = inst.source_url ∧
    (formSave form inst pageNet favNet).1.tags = inst.tags := by
  have hdl : ∀ u t, download_favicon favNet u t = none := by
    intro u t
    unfold download_favicon
    rcases hall u t with h | ⟨s, b, h, hs⟩
    · rw [h]
    · rw [h]
      simp [hs]
  have hm := mergeMetadata_frame inst (fetch_page_metadata pageNet inst.source_url 10) favNet
  have hfav := mergeMetadata_favicon_of_download_none inst
    (fetch_page_metadata pageNet inst.source_url 10) favNet (hdl _ _)
  rcases formSave_fst form inst pageNet favNet with h | h <;> rw [h]
  · exact ⟨hdl, rfl, rfl, rfl, rfl, rfl, rfl⟩
  · exact ⟨hdl, hfav, hm.2.1, hm.2.2.1, hm.2.2.2.2.1, hm.2.2.2.2.2.1, hm.2.2.2.2.2.2.1⟩

/-- C8 witness: with every favicon request answering 404, a concrete save
attaches no favicon and keeps the other fields. -/
theorem download_favicon_fails_soft_save_completes_witness :
    download_favicon wFavNet404 "https://x.com/favicon.ico" 10 = none ∧
    (formSave wForm wInst wPageNet wFavNet404).1.favicon = none ∧
    (formSave wForm wInst wPageNet wFavNet404).1.quote_text = "q" := by
  have h := download_favicon_fails_soft_save_completes wFavNet404 wForm wInst wPageNet
    (fun u t => Or.inr ⟨404, [], rfl, by omega⟩)
  exact ⟨h.1 "https://x.com/favicon.ico" 10, h.2.1, h.2.2.1⟩

/-- C10: the fetch-and-merge step assigns only the page title, author and
favicon; every other field of the record — primary key, quoted text,
commentary, title, slug, source URL, tags, creation timestamp, draft flag,
series, card image, metadata, import reference — is unchanged, whether or not
the fetch runs or succeeds. -/
theorem formSave_frame (form : QuotebackForm) (inst : Quoteback)
    (pageNet : String → Nat → PageResp) (favNet : String → Nat → FavResp) :
    (formSave form inst pageNet favNet).1.pk = inst.pk ∧
    (formSave form inst pageNet favNet).1.quote_text = inst.quote_text ∧
    (formSave form inst pageNet favNet).1.commentary = inst.commentary ∧
    (formSave form inst pageNet favNet).1.title = inst.title ∧
    (formSave form inst pageNet favNet).1.slug = inst.slug ∧
    (formSave form inst pageNet favNet).1.source_url = inst.source_url ∧
    (formSave form inst pageNet favNet).1.tags = inst.tags ∧
    (formSave form inst pageNet favNet).1.created = inst.created ∧
    (formSave form inst pageNet favNet).1.is_draft = inst.is_draft ∧
    (formSave form inst pageNet favNet).1.series = inst.series ∧
    (formSave form inst pageNet favNet).1.card_image = inst.card_image ∧
    (formSave form inst pageNet favNet).1.metadata = inst.metadata ∧
    (formSave form inst pageNet favNet).1.import_ref = inst.import_ref := by
  rcases formSave_fst form inst pageNet favNet with h | h <;> rw [h]
  · exact ⟨rfl, rfl, rfl, rfl, rfl, rfl, rfl, rfl, rfl, rfl, rfl, rfl, rfl⟩
  · exact mergeMetadata_frame inst _ favNet
